import Mathlib

/-!
Verification of the nested-transaction connection wrapper in
`sqlite_storage/src/db_connection.rs` and its error taxonomy in
`sqlite_storage/src/error.rs`.

The Rust code is a thin wrapper (`DbConnection`) over the `rusqlite`
library.  We embed it with explicit state passing:

* `ConnState` is the state of the one shared physical connection: the
  current database contents `db`, the value of `last_insert_rowid`, the
  stack of savepoint snapshots `snaps` (innermost first, as SQLite keeps
  them), and the stack `openIds` of identities of the currently open
  scoped handles (innermost first).  Fresh identities drawn from `nextId`
  model Rust's handle identity: a handle moved into `commit`, or dropped,
  can never become usable again because its id is never reissued.

* Rust's borrow checker statically restricts every method of
  `DbConnection` to the innermost live handle (creating a child
  exclusively borrows the parent; `commit(self)` consumes the handle).
  We model that discipline as the predicate `Usable`: it is the implicit
  precondition that the Rust type system attaches to every operation, so
  "no operation can be performed on the handle" is rendered as
  `¬ Usable`.

* The behaviour of individual SQL statements is rusqlite's business, not
  this repository's; it is abstracted as a `Backend` parameter
  (statement execution, batch execution, row production for queries,
  statement preparation, savepoint creation).  The savepoint machinery
  itself (snapshot on `SAVEPOINT`, restore on rollback, discard marker
  on `RELEASE`, rollback on drop) is modelled concretely, following the
  backend contract stated in the specification's External Interfaces
  section and rusqlite's documented semantics.
-/

/-- The error type of `sqlite_storage/src/error.rs`: a single variant
wrapping a human-readable message. -/
inductive Error where
  | DatabaseError (msg : String) : Error
  deriving DecidableEq, Repr

/-- A backend-native error (`rusqlite::Error`), abstracted by the string
its `Display` implementation produces (what `e.to_string()` yields). -/
structure NativeError where
  msg : String
  deriving DecidableEq, Repr

/-- A row produced by a query, abstracted as its column values. -/
abbrev Row := List String

/-- Database contents, abstracted as the list of rows it holds. -/
abbrev DB := List Row

/-- A compiled statement (`rusqlite::Statement`), abstracted by its SQL
text. -/
structure Statement where
  sql : String
  deriving DecidableEq, Repr

/-- Message of `DbConnection::commit` on the root variant (verbatim from
`db_connection.rs`). -/
def msgCommitRoot : String := "Transaction has not been started. Cannot commit unstarted transaction."

/-- Message of `DbConnection::as_connection_mut` on the savepoint variant
(verbatim from `db_connection.rs`). -/
def msgMutInTxn : String := "Cannot get mutable connection reference while in a transaction"

/-- Message of `DbConnection::prepare` on a backend failure (verbatim). -/
def msgPrepareFail : String := "Error preparing db connection."

/-- Message of `DbConnection::new_transaction` on a backend failure
(verbatim). -/
def msgStartTxnFail : String := "Error starting transaction."

/-- Message of `DbConnection::commit` on a backend failure of the
scoped arm's `Savepoint::commit` (verbatim). -/
def msgCommitFail : String := "Error committing transaction."

/-- Display string of `rusqlite::Error::QueryReturnedNoRows`. -/
def msgNoRows : String := "Query returned no rows"

/-- The error message the specification and claim C1 quote for a commit
on the root handle. -/
def msgSpecNoTxn : String := "no transaction in progress"

/-- Model of the backend library (rusqlite) as far as individual SQL
statements are concerned: how a statement transforms the database and
the connection's last-insert rowid, which rows a query yields, whether a
statement compiles, and whether creating one more savepoint at a given
nesting depth succeeds. -/
structure Backend where
  /-- `Connection::execute` / `Savepoint::execute`: on success, the new
  database contents, the affected-row count, and the new value of
  `last_insert_rowid`. -/
  exec : String → List String → DB → Int → Except NativeError (DB × Nat × Int)
  /-- `execute_batch`: on success, the new database contents and rowid. -/
  execBatch : String → DB → Int → Except NativeError (DB × Int)
  /-- The rows a query statement produces against given contents. -/
  query : String → List String → DB → Except NativeError (List Row)
  /-- `prepare`: `none` when the statement compiles, `some e` on a
  backend error. -/
  prep : String → DB → Option NativeError
  /-- Whether `SAVEPOINT` creation succeeds at a given nesting depth
  (e.g. it may fail on resource exhaustion). -/
  savepointOk : Nat → Bool
  /-- Whether `RELEASE` of the innermost savepoint (`Savepoint::commit`)
  succeeds at a given nesting depth. -/
  releaseOk : Nat → Bool

/-- The tagged union of `db_connection.rs`: a handle is either the root
(owning the physical connection) or a scoped savepoint borrowed from its
parent.  The `id` is the handle's identity in the model (Rust handle
identity). -/
inductive UnderlyingDbConnection where
  | connection : UnderlyingDbConnection
  | savepoint (id : Nat) : UnderlyingDbConnection
  deriving DecidableEq, Repr

/-- The wrapper struct of `db_connection.rs`. -/
structure DbConnection where
  connection : UnderlyingDbConnection
  deriving DecidableEq, Repr

/-- State of the one shared physical connection together with the
savepoint stack the backend keeps for it. -/
structure ConnState where
  /-- Current database contents (what any read sees right now). -/
  db : DB
  /-- `last_insert_rowid` of the connection (connection-level state:
  not reverted by savepoint rollback). -/
  lastRowid : Int
  /-- Snapshot taken at each open savepoint, innermost first; rolling a
  savepoint back restores its snapshot. -/
  snaps : List DB
  /-- Identities of the open scoped handles, innermost first. -/
  openIds : List Nat
  /-- Source of fresh handle identities. -/
  nextId : Nat
  deriving DecidableEq, Repr

/-- `DbConnection::new`: wraps a freshly opened physical connection in
the root variant.  (The connection's state lives in `ConnState`.) -/
def DbConnection.new : DbConnection :=
  { connection := UnderlyingDbConnection.connection }

/-- The borrow discipline Rust enforces statically: an operation can be
performed on a handle exactly when it is the innermost live handle —
the root when no savepoint is open, a scoped handle when its savepoint
is the innermost open one.  Creating a child makes the parent
unusable; `commit(self)` and `drop` make the handle itself unusable. -/
def Usable (h : DbConnection) (s : ConnState) : Prop :=
  match h.connection with
  | UnderlyingDbConnection.connection => s.openIds = []
  | UnderlyingDbConnection.savepoint i => s.openIds.head? = some i

instance (h : DbConnection) (s : ConnState) : Decidable (Usable h s) :=
  match h with
  | ⟨UnderlyingDbConnection.connection⟩ =>
      inferInstanceAs (Decidable (s.openIds = []))
  | ⟨UnderlyingDbConnection.savepoint i⟩ =>
      inferInstanceAs (Decidable (s.openIds.head? = some i))

/-- A scoped handle is alive while its savepoint is still open; the root
is alive for the connection's whole life. -/
def AliveIn (h : DbConnection) (s : ConnState) : Prop :=
  match h.connection with
  | UnderlyingDbConnection.connection => True
  | UnderlyingDbConnection.savepoint i => i ∈ s.openIds

instance (h : DbConnection) (s : ConnState) : Decidable (AliveIn h s) :=
  match h with
  | ⟨UnderlyingDbConnection.connection⟩ => inferInstanceAs (Decidable True)
  | ⟨UnderlyingDbConnection.savepoint i⟩ =>
      inferInstanceAs (Decidable (i ∈ s.openIds))

/-- Well-formedness of a connection state, maintained by every
operation: open handle ids are distinct and below the fresh-id counter,
and there is exactly one snapshot per open savepoint. -/
structure WF (s : ConnState) : Prop where
  nodup : s.openIds.Nodup
  bounded : ∀ i ∈ s.openIds, i < s.nextId
  aligned : s.snaps.length = s.openIds.length

/-- `DbConnection::execute`: dispatches on the variant — the root runs
the statement on the owned connection, a scoped handle on its savepoint
(both execute against the connection's current contents, which is how a
savepoint's `execute` behaves); any backend error is stringified into
`Error::DatabaseError`. -/
def DbConnection.execute (B : Backend) (h : DbConnection) (sql : String)
    (params : List String) (s : ConnState) : Except Error (Nat × ConnState) :=
  match h.connection with
  | UnderlyingDbConnection.connection =>
      match B.exec sql params s.db s.lastRowid with
      | Except.error e => Except.error (Error.DatabaseError e.msg)
      | Except.ok (db', n, rid) => Except.ok (n, { s with db := db', lastRowid := rid })
  | UnderlyingDbConnection.savepoint _ =>
      match B.exec sql params s.db s.lastRowid with
      | Except.error e => Except.error (Error.DatabaseError e.msg)
      | Except.ok (db', n, rid) => Except.ok (n, { s with db := db', lastRowid := rid })

/-- `DbConnection::execute_batch`: same dispatch and error wrapping as
`execute`, no parameters, no count. -/
def DbConnection.execute_batch (B : Backend) (h : DbConnection) (sql : String)
    (s : ConnState) : Except Error ConnState :=
  match h.connection with
  | UnderlyingDbConnection.connection =>
      match B.execBatch sql s.db s.lastRowid with
      | Except.error e => Except.error (Error.DatabaseError e.msg)
      | Except.ok (db', rid) => Except.ok { s with db := db', lastRowid := rid }
  | UnderlyingDbConnection.savepoint _ =>
      match B.execBatch sql s.db s.lastRowid with
      | Except.error e => Except.error (Error.DatabaseError e.msg)
      | Except.ok (db', rid) => Except.ok { s with db := db', lastRowid := rid }

/-- Model of rusqlite's `Connection::query_row` (reached through the
`Deref` impls): runs the query, applies the mapper to the FIRST row,
fails with `QueryReturnedNoRows` when the query yields no row.  Rows
after the first are ignored — rusqlite documents `query_row` as a
convenience for queries expected to return one row and states that
additional rows are not an error. -/
def rusqliteQueryRow {T : Type} (B : Backend) (sql : String)
    (params : List String) (f : Row → Except NativeError T) (db : DB) :
    Except NativeError T :=
  match B.query sql params db with
  | Except.error e => Except.error e
  | Except.ok [] => Except.error { msg := msgNoRows }
  | Except.ok (r :: _) => f r

/-- `DbConnection::query_row`: delegates through `Deref` to the backend's
`query_row` and stringifies any error into `Error::DatabaseError`. -/
def DbConnection.query_row {T : Type} (B : Backend) (h : DbConnection)
    (sql : String) (params : List String) (f : Row → Except NativeError T)
    (s : ConnState) : Except Error T :=
  match h.connection with
  | UnderlyingDbConnection.connection =>
      match rusqliteQueryRow B sql params f s.db with
      | Except.error e => Except.error (Error.DatabaseError e.msg)
      | Except.ok v => Except.ok v
  | UnderlyingDbConnection.savepoint _ =>
      match rusqliteQueryRow B sql params f s.db with
      | Except.error e => Except.error (Error.DatabaseError e.msg)
      | Except.ok v => Except.ok v

/-- `DbConnection::prepare`: dispatches on the variant and maps any
backend error to the fixed message `msgPrepareFail`. -/
def DbConnection.prepare (B : Backend) (h : DbConnection) (sql : String)
    (s : ConnState) : Except Error Statement :=
  match h.connection with
  | UnderlyingDbConnection.connection =>
      match B.prep sql s.db with
      | some _ => Except.error (Error.DatabaseError msgPrepareFail)
      | none => Except.ok { sql := sql }
  | UnderlyingDbConnection.savepoint _ =>
      match B.prep sql s.db with
      | some _ => Except.error (Error.DatabaseError msgPrepareFail)
      | none => Except.ok { sql := sql }

/-- `DbConnection::last_insert_rowid`: both variants dereference through
`UnderlyingDbConnection::deref` to the one shared physical connection
(`Savepoint::deref` reaches the connection the savepoint lives on), so
the value read is the connection-level rowid.  Total: returns an
integer, no error path. -/
def DbConnection.last_insert_rowid (h : DbConnection) (s : ConnState) : Int :=
  match h.connection with
  | UnderlyingDbConnection.connection => s.lastRowid
  | UnderlyingDbConnection.savepoint _ => s.lastRowid

/-- `DbConnection::new_transaction`: both variants create one more
savepoint nested in the current scope (`conn.savepoint()` resp.
`sp.savepoint()`); the backend takes a snapshot of the current contents;
the returned child handle gets a fresh identity and exclusively borrows
the caller.  A backend failure is mapped to the fixed message
`msgStartTxnFail`. -/
def DbConnection.new_transaction (B : Backend) (h : DbConnection)
    (s : ConnState) : Except Error (DbConnection × ConnState) :=
  match h.connection with
  | UnderlyingDbConnection.connection =>
      if B.savepointOk s.openIds.length then
        Except.ok ({ connection := UnderlyingDbConnection.savepoint s.nextId },
          { s with snaps := s.db :: s.snaps,
                   openIds := s.nextId :: s.openIds,
                   nextId := s.nextId + 1 })
      else Except.error (Error.DatabaseError msgStartTxnFail)
  | UnderlyingDbConnection.savepoint _ =>
      if B.savepointOk s.openIds.length then
        Except.ok ({ connection := UnderlyingDbConnection.savepoint s.nextId },
          { s with snaps := s.db :: s.snaps,
                   openIds := s.nextId :: s.openIds,
                   nextId := s.nextId + 1 })
      else Except.error (Error.DatabaseError msgStartTxnFail)

/-- `DbConnection::commit(self)`: on the root variant, a reported error
with the verbatim message; on a scoped handle, `Savepoint::commit`
(`RELEASE`): on success the current contents are kept, the innermost
snapshot is discarded, and the handle — consumed by Rust's move
semantics — is removed from the open stack; a backend failure of the
`RELEASE` is mapped (`map_err(|_| ...)`, discarding the native error)
to the fixed message `msgCommitFail`. -/
def DbConnection.commit (B : Backend) (h : DbConnection) (s : ConnState) :
    Except Error ConnState :=
  match h.connection with
  | UnderlyingDbConnection.connection =>
      Except.error (Error.DatabaseError msgCommitRoot)
  | UnderlyingDbConnection.savepoint _ =>
      if B.releaseOk s.openIds.length then
        Except.ok { s with snaps := s.snaps.tail, openIds := s.openIds.tail }
      else Except.error (Error.DatabaseError msgCommitFail)

/-- Evaluation of `commit` on a handle in the scoped variant. -/
theorem commit_sp (B : Backend) (i : Nat) (s : ConnState) :
    DbConnection.commit B
        { connection := UnderlyingDbConnection.savepoint i } s =
      (if B.releaseOk s.openIds.length then
        Except.ok { s with snaps := s.snaps.tail, openIds := s.openIds.tail }
      else Except.error (Error.DatabaseError msgCommitFail)) :=
  rfl

/-- Rust `Drop` of a scoped handle that was not committed: rusqlite's
`Savepoint` rolls back on drop — the innermost snapshot is restored and
that one savepoint level is closed.  Total: the drop path has no error
channel.  (`last_insert_rowid` is connection state and is not
reverted.) -/
def dropScoped (s : ConnState) : ConnState :=
  { s with db := s.snaps.headD s.db, snaps := s.snaps.tail,
           openIds := s.openIds.tail }

/-- `DbConnection::as_connection_mut`: grants direct mutable access to
the physical connection on the root variant, and is a reported error on
a scoped handle.  Access granted is modelled as `Except.ok ()`. -/
def DbConnection.as_connection_mut (h : DbConnection) : Except Error Unit :=
  match h.connection with
  | UnderlyingDbConnection.connection => Except.ok ()
  | UnderlyingDbConnection.savepoint _ =>
      Except.error (Error.DatabaseError msgMutInTxn)

/-- One state-changing operation of the wrapper's API: statement
execution at the innermost handle, opening a nested transaction,
committing the innermost savepoint, or dropping it (rollback).
Read-only operations (`query_row`, `prepare`, `last_insert_rowid`,
`as_connection_mut`) do not change the modelled state. -/
inductive Step (B : Backend) : ConnState → ConnState → Prop where
  | exec (h : DbConnection) (sql : String) (params : List String)
      (n : Nat) (s s' : ConnState) :
      DbConnection.execute B h sql params s = Except.ok (n, s') → Step B s s'
  | execBatch (h : DbConnection) (sql : String) (s s' : ConnState) :
      DbConnection.execute_batch B h sql s = Except.ok s' → Step B s s'
  | newTxn (h c : DbConnection) (s s' : ConnState) :
      DbConnection.new_transaction B h s = Except.ok (c, s') → Step B s s'
  | commitStep (h : DbConnection) (s s' : ConnState) :
      DbConnection.commit B h s = Except.ok s' → Step B s s'
  | dropStep (s : ConnState) : Step B s (dropScoped s)

/-- Reflexive-transitive closure of `Step`: any number of API
operations. -/
def Steps (B : Backend) : ConnState → ConnState → Prop :=
  Relation.ReflTransGen (Step B)

/-! ### Basic lemmas about the embedding -/

theorem usable_root_iff (s : ConnState) :
    Usable { connection := UnderlyingDbConnection.connection } s ↔ s.openIds = [] :=
  Iff.rfl

theorem usable_sp_iff (i : Nat) (s : ConnState) :
    Usable { connection := UnderlyingDbConnection.savepoint i } s ↔
      s.openIds.head? = some i :=
  Iff.rfl

/-- Both variants of `execute` run the statement against the
connection's current contents: the dispatch has the same shape at every
nesting depth. -/
theorem execute_dispatch (B : Backend) (h : DbConnection) (sql : String)
    (params : List String) (s : ConnState) :
    DbConnection.execute B h sql params s =
      (match B.exec sql params s.db s.lastRowid with
       | Except.error e => Except.error (Error.DatabaseError e.msg)
       | Except.ok (db', n, rid) =>
           Except.ok (n, { s with db := db', lastRowid := rid })) := by
  obtain ⟨c⟩ := h
  cases c <;> rfl

theorem execute_batch_dispatch (B : Backend) (h : DbConnection) (sql : String)
    (s : ConnState) :
    DbConnection.execute_batch B h sql s =
      (match B.execBatch sql s.db s.lastRowid with
       | Except.error e => Except.error (Error.DatabaseError e.msg)
       | Except.ok (db', rid) =>
           Except.ok { s with db := db', lastRowid := rid }) := by
  obtain ⟨c⟩ := h
  cases c <;> rfl

theorem query_row_dispatch {T : Type} (B : Backend) (h : DbConnection)
    (sql : String) (params : List String) (f : Row → Except NativeError T)
    (s : ConnState) :
    DbConnection.query_row B h sql params f s =
      (match rusqliteQueryRow B sql params f s.db with
       | Except.error e => Except.error (Error.DatabaseError e.msg)
       | Except.ok v => Except.ok v) := by
  obtain ⟨c⟩ := h
  cases c <;> rfl

theorem prepare_dispatch (B : Backend) (h : DbConnection) (sql : String)
    (s : ConnState) :
    DbConnection.prepare B h sql s =
      (match B.prep sql s.db with
       | some _ => Except.error (Error.DatabaseError msgPrepareFail)
       | none => Except.ok { sql := sql }) := by
  obtain ⟨c⟩ := h
  cases c <;> rfl

theorem new_transaction_dispatch (B : Backend) (h : DbConnection)
    (s : ConnState) :
    DbConnection.new_transaction B h s =
      (if B.savepointOk s.openIds.length then
        Except.ok ({ connection := UnderlyingDbConnection.savepoint s.nextId },
          { s with snaps := s.db :: s.snaps,
                   openIds := s.nextId :: s.openIds,
                   nextId := s.nextId + 1 })
      else Except.error (Error.DatabaseError msgStartTxnFail)) := by
  obtain ⟨c⟩ := h
  cases c <;> rfl

theorem last_insert_rowid_eq (h : DbConnection) (s : ConnState) :
    DbConnection.last_insert_rowid h s = s.lastRowid := by
  obtain ⟨c⟩ := h
  cases c <;> rfl

/-- Every step leaves the bookkeeping stacks unchanged (statement
execution), pushes one level (opening a transaction), or pops one level
(commit or drop). -/
theorem Step.shape {B : Backend} {s s' : ConnState} (st : Step B s s') :
    (s'.openIds = s.openIds ∧ s'.snaps = s.snaps ∧ s'.nextId = s.nextId) ∨
    (s'.openIds = s.nextId :: s.openIds ∧ s'.snaps = s.db :: s.snaps ∧
      s'.nextId = s.nextId + 1) ∨
    (s'.openIds = s.openIds.tail ∧ s'.snaps = s.snaps.tail ∧
      s'.nextId = s.nextId) := by
  cases st with
  | exec h sql params n s s' heq =>
      rw [execute_dispatch] at heq
      split at heq
      · exact absurd heq (by simp)
      · refine Or.inl ?_
        obtain ⟨-, h2⟩ := Prod.mk.injEq .. ▸ Except.ok.inj heq
        subst h2
        exact ⟨rfl, rfl, rfl⟩
  | execBatch h sql s s' heq =>
      rw [execute_batch_dispatch] at heq
      split at heq
      · exact absurd heq (by simp)
      · refine Or.inl ?_
        have h2 := Except.ok.inj heq
        subst h2
        exact ⟨rfl, rfl, rfl⟩
  | newTxn h c s s' heq =>
      rw [new_transaction_dispatch] at heq
      split at heq
      · refine Or.inr (Or.inl ?_)
        obtain ⟨-, h2⟩ := Prod.mk.injEq .. ▸ Except.ok.inj heq
        subst h2
        exact ⟨rfl, rfl, rfl⟩
      · exact absurd heq (by simp)
  | commitStep h s s' heq =>
      obtain ⟨c⟩ := h
      cases c with
      | connection => exact absurd heq (by simp [DbConnection.commit])
      | savepoint i =>
          rw [commit_sp] at heq
          split at heq
          · refine Or.inr (Or.inr ?_)
            have h2 := Except.ok.inj heq
            subst h2
            exact ⟨rfl, rfl, rfl⟩
          · exact absurd heq (by simp)
  | dropStep s => exact Or.inr (Or.inr ⟨rfl, rfl, rfl⟩)

theorem Step.nextId_le {B : Backend} {s s' : ConnState} (st : Step B s s') :
    s.nextId ≤ s'.nextId := by
  rcases st.shape with ⟨-, -, h⟩ | ⟨-, -, h⟩ | ⟨-, -, h⟩ <;> omega

theorem mem_of_mem_tail {α : Type} {a : α} {l : List α}
    (h : a ∈ l.tail) : a ∈ l := by
  cases l with
  | nil => exact absurd h (by simp)
  | cons x xs => exact List.mem_cons_of_mem x h

/-- Well-formedness is preserved by every operation. -/
theorem Step.wf {B : Backend} {s s' : ConnState} (st : Step B s s')
    (w : WF s) : WF s' := by
  rcases st.shape with ⟨h1, h2, h3⟩ | ⟨h1, h2, h3⟩ | ⟨h1, h2, h3⟩
  · exact ⟨h1 ▸ w.nodup, fun i hi => h3 ▸ w.bounded i (h1 ▸ hi),
      by rw [h1, h2, w.aligned]⟩
  · refine ⟨?_, ?_, ?_⟩
    · rw [h1]
      exact List.nodup_cons.mpr
        ⟨fun hmem => lt_irrefl _ (w.bounded _ hmem), w.nodup⟩
    · intro i hi
      rw [h1] at hi
      rw [h3]
      rcases List.mem_cons.mp hi with rfl | hi'
      · omega
      · have := w.bounded i hi'
        omega
    · rw [h1, h2]
      simp [w.aligned]
  · refine ⟨h1 ▸ w.nodup.tail, fun i hi => h3 ▸ w.bounded i
      (mem_of_mem_tail (h1 ▸ hi)), ?_⟩
    rw [h1, h2, List.length_tail, List.length_tail, w.aligned]

/-- A handle identity that is below the fresh-id counter and no longer
on the open stack never reappears: fresh ids are never reissued. -/
theorem Step.dead {B : Backend} {s s' : ConnState} (st : Step B s s')
    {i : Nat} (hlt : i < s.nextId) (hout : i ∉ s.openIds) :
    i < s'.nextId ∧ i ∉ s'.openIds := by
  rcases st.shape with ⟨h1, -, h3⟩ | ⟨h1, -, h3⟩ | ⟨h1, -, h3⟩
  · exact ⟨h3 ▸ hlt, h1 ▸ hout⟩
  · refine ⟨by omega, ?_⟩
    rw [h1]
    intro hmem
    rcases List.mem_cons.mp hmem with rfl | hmem'
    · exact lt_irrefl _ hlt
    · exact hout hmem'
  · exact ⟨h3 ▸ hlt, fun hmem => hout (mem_of_mem_tail (h1 ▸ hmem))⟩

theorem Steps.wf_dead {B : Backend} {s s' : ConnState} (sts : Steps B s s')
    {i : Nat} (w : WF s) (hlt : i < s.nextId) (hout : i ∉ s.openIds) :
    WF s' ∧ i < s'.nextId ∧ i ∉ s'.openIds := by
  induction sts with
  | refl => exact ⟨w, hlt, hout⟩
  | tail _ st ih =>
      obtain ⟨w1, hlt1, hout1⟩ := ih
      obtain ⟨hlt2, hout2⟩ := st.dead hlt1 hout1
      exact ⟨st.wf w1, hlt2, hout2⟩

/-- A scoped handle whose id left the open stack is unusable. -/
theorem not_usable_of_not_mem {i : Nat} {s : ConnState}
    (hout : i ∉ s.openIds) :
    ¬ Usable { connection := UnderlyingDbConnection.savepoint i } s := by
  rw [usable_sp_iff]
  intro hhead
  exact hout (List.mem_of_mem_head? hhead)

/-! ### The frame below an open scoped handle

While a scoped handle with id `cid` is alive, the part of the two stacks
at and below it is untouched: its own snapshot `snap`, the open ids
`below` of its ancestors, and their snapshots `belowS`.  Operations only
push onto or pop from the region strictly above it. -/

/-- The open-id stack has `cid :: below` as a suffix and the snapshot
stack correspondingly has `snap :: belowS` as a suffix, with equally
long regions above both. -/
def FrameBelow (cid : Nat) (snap : DB) (below : List Nat)
    (belowS : List DB) (s : ConnState) : Prop :=
  ∃ pre preS, s.openIds = pre ++ cid :: below ∧
    s.snaps = preS ++ snap :: belowS ∧ pre.length = preS.length

theorem FrameBelow.mem {cid : Nat} {snap : DB} {below : List Nat}
    {belowS : List DB} {s : ConnState}
    (fr : FrameBelow cid snap below belowS s) : cid ∈ s.openIds := by
  obtain ⟨pre, preS, h1, -, -⟩ := fr
  rw [h1]
  exact List.mem_append_right pre (List.mem_cons_self cid below)

/-- One step either keeps the frame below a live scoped handle intact or
closes that handle (pops its id off the stack). -/
theorem FrameBelow.step {B : Backend} {s s' : ConnState} {cid : Nat}
    {snap : DB} {below : List Nat} {belowS : List DB}
    (st : Step B s s') (fr : FrameBelow cid snap below belowS s)
    (nd : s.openIds.Nodup) :
    FrameBelow cid snap below belowS s' ∨ cid ∉ s'.openIds := by
  obtain ⟨pre, preS, h1, h2, h3⟩ := fr
  rcases st.shape with ⟨e1, e2, -⟩ | ⟨e1, e2, -⟩ | ⟨e1, e2, -⟩
  · exact Or.inl ⟨pre, preS, e1 ▸ h1, e2 ▸ h2, h3⟩
  · refine Or.inl ⟨s.nextId :: pre, s.db :: preS, ?_, ?_, ?_⟩
    · rw [e1, h1]; rfl
    · rw [e2, h2]; rfl
    · simp [h3]
  · cases pre with
    | nil =>
        refine Or.inr ?_
        rw [e1, h1]
        simp only [List.nil_append, List.tail_cons]
        rw [h1] at nd
        simp only [List.nil_append] at nd
        exact (List.nodup_cons.mp nd).1
    | cons a pre' =>
        cases preS with
        | nil => exact absurd h3 (by simp)
        | cons b preS' =>
            refine Or.inl ⟨pre', preS', ?_, ?_, ?_⟩
            · rw [e1, h1]; rfl
            · rw [e2, h2]; rfl
            · simpa using h3

/-- Along any run, the frame below a scoped handle persists until the
handle is closed, and a closed handle stays closed. -/
theorem FrameBelow.steps {B : Backend} {s s' : ConnState} {cid : Nat}
    {snap : DB} {below : List Nat} {belowS : List DB}
    (sts : Steps B s s') (w : WF s) (fr : FrameBelow cid snap below belowS s) :
    WF s' ∧ cid < s'.nextId ∧
      (FrameBelow cid snap below belowS s' ∨ cid ∉ s'.openIds) := by
  induction sts with
  | refl => exact ⟨w, w.bounded cid fr.mem, Or.inl fr⟩
  | tail _ st ih =>
      obtain ⟨w1, hlt1, hfr1⟩ := ih
      refine ⟨st.wf w1, ?_, ?_⟩
      · exact lt_of_lt_of_le hlt1 st.nextId_le
      · rcases hfr1 with hfr1 | hout1
        · exact hfr1.step st w1.nodup
        · exact Or.inr (st.dead hlt1 hout1).2

theorem FrameBelow.head_ne {cid pid : Nat} {snap : DB} {rest : List Nat}
    {belowS : List DB} {s : ConnState}
    (fr : FrameBelow cid snap (pid :: rest) belowS s)
    (nd : s.openIds.Nodup) (hne : cid ≠ pid) :
    s.openIds.head? ≠ some pid := by
  obtain ⟨pre, preS, h1, -, -⟩ := fr
  intro hhead
  cases pre with
  | nil =>
      rw [h1] at hhead
      simp only [List.nil_append, List.head?_cons, Option.some.injEq] at hhead
      exact hne hhead
  | cons a pre' =>
      rw [h1] at hhead nd
      simp only [List.cons_append, List.head?_cons, Option.some.injEq] at hhead
      have hmem : a ∈ pre' ++ cid :: pid :: rest := by
        rw [hhead]
        exact List.mem_append_right pre' (List.mem_cons_of_mem cid
          (List.mem_cons_self pid rest))
      exact (List.nodup_cons.mp nd).1 hmem

theorem FrameBelow.ne_nil {cid : Nat} {snap : DB} {below : List Nat}
    {belowS : List DB} {s : ConnState}
    (fr : FrameBelow cid snap below belowS s) : s.openIds ≠ [] := by
  obtain ⟨pre, preS, h1, -, -⟩ := fr
  rw [h1]
  simp

/-- When the scoped handle with id `cid` is the innermost one, the two
stacks are exactly its frame: its snapshot on top of the ancestors'. -/
theorem FrameBelow.of_head {cid : Nat} {snap : DB} {below : List Nat}
    {belowS : List DB} {s : ConnState}
    (fr : FrameBelow cid snap below belowS s) (nd : s.openIds.Nodup)
    (hhead : s.openIds.head? = some cid) :
    s.openIds = cid :: below ∧ s.snaps = snap :: belowS := by
  obtain ⟨pre, preS, h1, h2, h3⟩ := fr
  cases pre with
  | nil =>
      cases preS with
      | nil => exact ⟨by simpa using h1, by simpa using h2⟩
      | cons b preS' => exact absurd h3 (by simp)
  | cons a pre' =>
      rw [h1] at hhead nd
      simp only [List.cons_append, List.head?_cons, Option.some.injEq] at hhead
      have hmem : a ∈ pre' ++ cid :: below := by
        rw [hhead]
        exact List.mem_append_right pre' (List.mem_cons_self cid below)
      exact absurd hmem (List.nodup_cons.mp nd).1

/-! ### Characterizing usability by the handle's variant -/

theorem usable_root_of_eq {h : DbConnection} {s : ConnState}
    (he : h.connection = UnderlyingDbConnection.connection) :
    Usable h s ↔ s.openIds = [] := by
  obtain ⟨c⟩ := h
  cases he
  exact Iff.rfl

theorem usable_sp_of_eq {h : DbConnection} {i : Nat} {s : ConnState}
    (he : h.connection = UnderlyingDbConnection.savepoint i) :
    Usable h s ↔ s.openIds.head? = some i := by
  obtain ⟨c⟩ := h
  cases he
  exact Iff.rfl

theorem alive_sp_of_eq {h : DbConnection} {i : Nat} {s : ConnState}
    (he : h.connection = UnderlyingDbConnection.savepoint i) :
    AliveIn h s ↔ i ∈ s.openIds := by
  obtain ⟨c⟩ := h
  cases he
  exact Iff.rfl

/-! ### Concrete backends and states for evaluating the claims -/

/-- Sample row values. -/
def rowA : String := "a"

def rowB : String := "b"

/-- A sample query text. -/
def qSql : String := "SELECT id, v FROM t"

/-- A sample native error message. -/
def msgNativeBoom : String := "near BOGUS: syntax error"

/-- A benign backend: every statement succeeds; an executed statement
inserts one row holding its own text and bumps the rowid. -/
def okBackend : Backend where
  exec := fun sql _ db rid => Except.ok (db ++ [[sql]], 1, rid + 1)
  execBatch := fun _ db rid => Except.ok (db, rid)
  query := fun _ _ db => Except.ok db
  prep := fun _ _ => none
  savepointOk := fun _ => true
  releaseOk := fun _ => true

/-- A backend whose queries always yield exactly two rows. -/
def twoRowBackend : Backend where
  exec := fun _ _ db rid => Except.ok (db, 0, rid)
  execBatch := fun _ db rid => Except.ok (db, rid)
  query := fun _ _ _ => Except.ok [[rowA], [rowB]]
  prep := fun _ _ => none
  savepointOk := fun _ => true
  releaseOk := fun _ => true

/-- A backend on which everything fails with a native error. -/
def failBackend : Backend where
  exec := fun _ _ _ _ => Except.error { msg := msgNativeBoom }
  execBatch := fun _ _ _ => Except.error { msg := msgNativeBoom }
  query := fun _ _ _ => Except.error { msg := msgNativeBoom }
  prep := fun _ _ => some { msg := msgNativeBoom }
  savepointOk := fun _ => false
  releaseOk := fun _ => false

/-- A freshly opened connection's state. -/
def st0 : ConnState where
  db := []
  lastRowid := 0
  snaps := []
  openIds := []
  nextId := 0

/-- A root handle. -/
def rootH : DbConnection := DbConnection.new

/-- A scoped handle with identity `i`. -/
def spH (i : Nat) : DbConnection :=
  { connection := UnderlyingDbConnection.savepoint i }

/-- A state with one open savepoint, held by the handle with id 0. -/
def st1 : ConnState where
  db := []
  lastRowid := 0
  snaps := [[]]
  openIds := [0]
  nextId := 1

/-! ### Claim C1 -/

/-- Claim C1, counterexample to the quoted message: `commit()` on a
freshly built root handle fails — but the `DatabaseError` it reports
carries the verbatim source message, which is not the string
"no transaction in progress" quoted by the claim. -/
theorem C1_counterexample :
    DbConnection.new.commit okBackend st0 =
      Except.error (Error.DatabaseError msgCommitRoot) ∧
    msgCommitRoot ≠ msgSpecNoTxn :=
  ⟨rfl, by decide⟩

/-- Claim C1 (amended): for every handle in the root variant — and
`DbConnection.new` builds the root variant — `commit()` never succeeds:
it always returns `Error::DatabaseError` with the message
"Transaction has not been started. Cannot commit unstarted
transaction.".  `commit` is a total function into `Except`, so the
failure is a reported error, not a panic. -/
theorem C1_root_commit_always_fails (B : Backend) (h : DbConnection)
    (s : ConnState)
    (hroot : h.connection = UnderlyingDbConnection.connection) :
    h.commit B s = Except.error (Error.DatabaseError msgCommitRoot) ∧
    DbConnection.new.connection = UnderlyingDbConnection.connection := by
  obtain ⟨c⟩ := h
  cases hroot
  exact ⟨rfl, rfl⟩

/-- Claim C1, witness: the amended theorem applied to a freshly built
root handle on a fresh connection state. -/
theorem C1_witness :
    DbConnection.new.commit okBackend st0 =
      Except.error (Error.DatabaseError msgCommitRoot) :=
  (C1_root_commit_always_fails okBackend DbConnection.new st0 rfl).1

/-! ### Claim C2 -/

/-- Claim C2, counterexample: against a backend whose query yields two
rows, `query_row` does not fail — it returns the first row's mapped
value, contradicting "returns an error whenever the statement yields
more than one row". -/
theorem C2_counterexample :
    twoRowBackend.query qSql [] st0.db = Except.ok [[rowA], [rowB]] ∧
    DbConnection.query_row twoRowBackend rootH qSql [] Except.ok st0 =
      Except.ok [rowA] :=
  ⟨rfl, rfl⟩

/-- Claim C2 (amended): for every statement, parameter set and mapper,
`query_row` returns an error when the statement yields zero rows
(rusqlite's `QueryReturnedNoRows`, stringified), an error when the
backend fails, and an error when the mapper fails on the first row; when
the statement yields at least one row and the mapper succeeds on the
first row it returns that mapped value — rows after the first are
ignored, not an error. -/
theorem C2_query_row_behaviour {T : Type} (B : Backend) (h : DbConnection)
    (sql : String) (params : List String) (f : Row → Except NativeError T)
    (s : ConnState) :
    (B.query sql params s.db = Except.ok [] →
      DbConnection.query_row B h sql params f s =
        Except.error (Error.DatabaseError msgNoRows)) ∧
    (∀ e, B.query sql params s.db = Except.error e →
      DbConnection.query_row B h sql params f s =
        Except.error (Error.DatabaseError e.msg)) ∧
    (∀ r rest e, B.query sql params s.db = Except.ok (r :: rest) →
      f r = Except.error e →
      DbConnection.query_row B h sql params f s =
        Except.error (Error.DatabaseError e.msg)) ∧
    (∀ r rest v, B.query sql params s.db = Except.ok (r :: rest) →
      f r = Except.ok v →
      DbConnection.query_row B h sql params f s = Except.ok v) := by
  refine ⟨?_, ?_, ?_, ?_⟩
  · intro hq
    rw [query_row_dispatch]
    unfold rusqliteQueryRow
    rw [hq]
  · intro e hq
    rw [query_row_dispatch]
    unfold rusqliteQueryRow
    rw [hq]
  · intro r rest e hq hf
    rw [query_row_dispatch]
    unfold rusqliteQueryRow
    rw [hq]
    show (match f r with
          | Except.error e => Except.error (Error.DatabaseError e.msg)
          | Except.ok v => Except.ok v) =
        Except.error (Error.DatabaseError e.msg)
    rw [hf]
  · intro r rest v hq hf
    rw [query_row_dispatch]
    unfold rusqliteQueryRow
    rw [hq]
    show (match f r with
          | Except.error e => Except.error (Error.DatabaseError e.msg)
          | Except.ok v => Except.ok v) = Except.ok v
    rw [hf]

/-- Claim C2, witness: the amended theorem applied to the two-row
backend — one row yielded beyond the first, value of the first row
returned. -/
theorem C2_witness :
    DbConnection.query_row twoRowBackend rootH qSql [] Except.ok st0 =
      Except.ok [rowA] :=
  (C2_query_row_behaviour twoRowBackend rootH qSql [] Except.ok st0).2.2.2
    [rowA] [[rowB]] [rowA] rfl rfl

/-! ### Claim C3 -/

/-- Claim C3: commit is terminal and single-consumption.  For every
scoped handle, once `commit()` has returned, the handle is unusable in
the resulting state and in every state reachable by further operations:
its identity has left the open stack and fresh identities are never
reissued, so the precondition `Usable` — which the Rust type system
attaches to execute, execute_batch, query_row, prepare,
last_insert_rowid, new_transaction, as_connection_mut and a second
commit alike by moving `self` into `commit` — can never hold again. -/
theorem C3_commit_consumes (B : Backend) (h : DbConnection) (i : Nat)
    (s s' s'' : ConnState)
    (hsp : h.connection = UnderlyingDbConnection.savepoint i)
    (w : WF s) (hu : Usable h s)
    (hc : h.commit B s = Except.ok s')
    (sts : Steps B s' s'') :
    ¬ Usable h s'' := by
  have hhead : s.openIds.head? = some i := (usable_sp_of_eq hsp).mp hu
  have hmem : i ∈ s.openIds := List.mem_of_mem_head? hhead
  have hlt : i < s.nextId := w.bounded i hmem
  have hstep : Step B s s' := Step.commitStep h s s' hc
  have hw' : WF s' := hstep.wf w
  obtain ⟨cc⟩ := h
  cases hsp
  have hs' : s' = { s with snaps := s.snaps.tail, openIds := s.openIds.tail } := by
    rw [commit_sp] at hc
    split at hc
    · exact (Except.ok.inj hc).symm
    · exact absurd hc (by simp)
  have hout : i ∉ s'.openIds := by
    rw [hs']
    show i ∉ s.openIds.tail
    have hnd := w.nodup
    cases hl : s.openIds with
    | nil => rw [hl] at hhead; exact absurd hhead (by simp)
    | cons a t =>
        rw [hl] at hhead hnd
        simp only [List.head?_cons, Option.some.injEq] at hhead
        have hnotin := (List.nodup_cons.mp hnd).1
        rw [hhead] at hnotin
        simpa using hnotin
  have hlt' : i < s'.nextId := by rw [hs']; exact hlt
  obtain ⟨-, -, hout''⟩ := Steps.wf_dead sts hw' hlt' hout
  exact not_usable_of_not_mem hout''

/-- The state left behind by committing the one open savepoint of
`st1`. -/
def st1Done : ConnState where
  db := []
  lastRowid := 0
  snaps := []
  openIds := []
  nextId := 1

/-- Claim C3, witness: committing the single open scoped handle of a
concrete state leaves it permanently unusable. -/
theorem C3_witness : ¬ Usable (spH 0) st1Done :=
  C3_commit_consumes okBackend (spH 0) 0 st1 st1Done st1Done rfl
    ⟨by decide, by decide, rfl⟩ (by decide) rfl Relation.ReflTransGen.refl

/-! ### Claim C4 -/

/-- Claim C4: `as_connection_mut` grants mutable access to the physical
connection exactly on a root handle with no nested transaction open
(being the reachable handle at all is the `Usable` discipline); on a
scoped handle it is the reported `DatabaseError` with the verbatim
source message; and after the child of a root handle is dropped or
committed, the root is usable again and the same call succeeds. -/
theorem C4_as_mutable_root (B : Backend) (h p c : DbConnection) (i : Nat)
    (s s' s₃ : ConnState) :
    (h.connection = UnderlyingDbConnection.savepoint i →
      h.as_connection_mut = Except.error (Error.DatabaseError msgMutInTxn)) ∧
    ((∃ u, h.as_connection_mut = Except.ok u) ∧ Usable h s ↔
      h.connection = UnderlyingDbConnection.connection ∧ s.openIds = []) ∧
    (p.connection = UnderlyingDbConnection.connection → Usable p s →
      DbConnection.new_transaction B p s = Except.ok (c, s') →
      ¬ Usable p s' ∧
      (Usable p (dropScoped s') ∧ p.as_connection_mut = Except.ok ()) ∧
      (c.commit B s' = Except.ok s₃ →
        Usable p s₃ ∧ p.as_connection_mut = Except.ok ())) := by
  refine ⟨?_, ?_, ?_⟩
  · intro he
    obtain ⟨cc⟩ := h
    cases he
    rfl
  · constructor
    · rintro ⟨⟨u, hok⟩, hu⟩
      obtain ⟨cc⟩ := h
      cases cc with
      | connection => exact ⟨rfl, (usable_root_of_eq rfl).mp hu⟩
      | savepoint j =>
          exact absurd hok (by simp [DbConnection.as_connection_mut])
    · rintro ⟨he, hnil⟩
      obtain ⟨cc⟩ := h
      cases he
      exact ⟨⟨(), rfl⟩, (usable_root_of_eq rfl).mpr hnil⟩
  · intro he hu hnew
    obtain ⟨pc⟩ := p
    cases he
    have hnil : s.openIds = [] := (usable_root_of_eq rfl).mp hu
    rw [new_transaction_dispatch] at hnew
    split at hnew
    · obtain ⟨hc1, hc2⟩ :
          ({ connection := UnderlyingDbConnection.savepoint s.nextId } : DbConnection) = c ∧
          ({ s with snaps := s.db :: s.snaps,
                    openIds := s.nextId :: s.openIds,
                    nextId := s.nextId + 1 } : ConnState) = s' :=
        Prod.mk.injEq .. ▸ Except.ok.inj hnew
      subst hc1
      subst hc2
      refine ⟨?_, ⟨?_, rfl⟩, ?_⟩
      · rw [usable_root_of_eq rfl]
        simp
      · rw [usable_root_of_eq rfl]
        show (s.nextId :: s.openIds).tail = []
        simpa using hnil
      · intro hcm
        rw [commit_sp] at hcm
        split at hcm
        case isFalse => exact absurd hcm (by simp)
        have hs₃ := (Except.ok.inj hcm).symm
        subst hs₃
        refine ⟨?_, rfl⟩
        rw [usable_root_of_eq rfl]
        show (s.nextId :: s.openIds).tail = []
        simpa using hnil
    · exact absurd hnew (by simp)

/-- Claim C4, witness: opening a nested transaction on a concrete root
handle makes it unusable; dropping the child makes it usable again,
where `as_connection_mut` succeeds. -/
theorem C4_witness :
    ¬ Usable rootH st1 ∧ Usable rootH (dropScoped st1) ∧
      rootH.as_connection_mut = Except.ok () :=
  have t := (C4_as_mutable_root okBackend (spH 0) rootH (spH 0) 0 st0 st1
    (dropScoped st1)).2.2 rfl rfl rfl
  ⟨t.1, t.2.1.1, t.2.1.2⟩

/-! ### Claim C5 -/

/-- A sample insert statement. -/
def insSql : String := "INSERT INTO t (v) VALUES (?1)"

/-- The state after executing `insSql` through the scoped handle open in
`st1` against the benign backend. -/
def stW : ConnState where
  db := [[insSql]]
  lastRowid := 1
  snaps := [[]]
  openIds := [0]
  nextId := 1

/-- Claim C5: target dispatch is uniform at every nesting depth — for
execute, execute_batch, query_row and prepare, a handle in either
variant produces exactly the result the root variant produces on the
same connection state (the root runs on the owned connection, a scoped
handle on its own savepoint, and a savepoint executes against the same
current contents); and a write issued through a scoped handle is
confined to that savepoint's effective transaction: it changes only the
current contents and rowid, leaves every snapshot and the open stack
untouched, is discarded by dropping the handle (which restores the
handle's own snapshot), and survives into the parent scope exactly via
`commit`. -/
theorem C5_uniform_dispatch {T : Type} (B : Backend) (h : DbConnection)
    (i : Nat) (sql : String) (params : List String)
    (f : Row → Except NativeError T) (s s' s'' : ConnState) (n : Nat) :
    DbConnection.execute B h sql params s =
      DbConnection.execute B DbConnection.new sql params s ∧
    DbConnection.execute_batch B h sql s =
      DbConnection.execute_batch B DbConnection.new sql s ∧
    DbConnection.query_row B h sql params f s =
      DbConnection.query_row B DbConnection.new sql params f s ∧
    DbConnection.prepare B h sql s =
      DbConnection.prepare B DbConnection.new sql s ∧
    (h.connection = UnderlyingDbConnection.savepoint i →
      DbConnection.execute B h sql params s = Except.ok (n, s') →
      s'.snaps = s.snaps ∧ s'.openIds = s.openIds ∧ s'.nextId = s.nextId ∧
      (dropScoped s').db = s.snaps.headD s'.db ∧
      (h.commit B s' = Except.ok s'' → s''.db = s'.db)) := by
  refine ⟨?_, ?_, ?_, ?_, ?_⟩
  · rw [execute_dispatch, execute_dispatch]
  · rw [execute_batch_dispatch, execute_batch_dispatch]
  · rw [query_row_dispatch, query_row_dispatch]
  · rw [prepare_dispatch, prepare_dispatch]
  · intro he hex
    rw [execute_dispatch] at hex
    split at hex
    · exact absurd hex (by simp)
    · obtain ⟨-, h2⟩ := Prod.mk.injEq .. ▸ Except.ok.inj hex
      subst h2
      refine ⟨rfl, rfl, rfl, rfl, ?_⟩
      intro hcm
      obtain ⟨cc⟩ := h
      cases he
      rw [commit_sp] at hcm
      split at hcm
      case isFalse => exact absurd hcm (by simp)
      have hs'' := (Except.ok.inj hcm).symm
      subst hs''
      rfl

/-- Claim C5, witness: an insert through the scoped handle of `st1`
leaves the snapshot stack and the open stack untouched. -/
theorem C5_witness : stW.snaps = st1.snaps ∧ stW.openIds = st1.openIds :=
  have t := (C5_uniform_dispatch okBackend (spH 0) 0 insSql []
    Except.ok st1 stW stW 1).2.2.2.2 rfl rfl
  ⟨t.1, t.2.1⟩

/-! ### Claim C6 -/

/-- Claim C6: exclusivity of borrow.  For every successful
`new_transaction`, the parent handle is unusable immediately and in
every state reachable while the child handle is alive; once the child
is gone — dropped, which reverts the connection to the contents it had
when the child was created, leaving no residual effect of the child's
uncommitted writes, or committed — the parent is usable again. -/
theorem C6_exclusive_borrow (B : Backend) (p c : DbConnection)
    (s s' : ConnState) (w : WF s) (hu : Usable p s)
    (hnew : DbConnection.new_transaction B p s = Except.ok (c, s')) :
    ¬ Usable p s' ∧
    (∀ s'', Steps B s' s'' → AliveIn c s'' → ¬ Usable p s'') ∧
    (∀ s'', Steps B s' s'' → Usable c s'' →
      Usable p (dropScoped s'') ∧ (dropScoped s'').db = s.db ∧
      (∀ s₃, c.commit B s'' = Except.ok s₃ → Usable p s₃)) := by
  have hstep : Step B s s' := Step.newTxn p c s s' hnew
  rw [new_transaction_dispatch] at hnew
  split at hnew
  · obtain ⟨hc1, hc2⟩ :
        ({ connection := UnderlyingDbConnection.savepoint s.nextId } :
            DbConnection) = c ∧
        ({ s with snaps := s.db :: s.snaps,
                  openIds := s.nextId :: s.openIds,
                  nextId := s.nextId + 1 } : ConnState) = s' :=
      Prod.mk.injEq .. ▸ Except.ok.inj hnew
    subst hc1
    subst hc2
    have w' : WF _ := hstep.wf w
    obtain ⟨pc⟩ := p
    cases pc with
    | connection =>
        have hnil : s.openIds = [] := (usable_root_iff s).mp hu
        have fr' : FrameBelow s.nextId s.db [] s.snaps
            { s with snaps := s.db :: s.snaps,
                     openIds := s.nextId :: s.openIds,
                     nextId := s.nextId + 1 } :=
          ⟨[], [], by simp [hnil], rfl, rfl⟩
        refine ⟨?_, ?_, ?_⟩
        · intro hu'
          have := (usable_root_iff _).mp hu'
          exact absurd this (by simp)
        · intro s'' sts halive
          obtain ⟨w'', -, hfr⟩ := FrameBelow.steps sts w' fr'
          have hmem : s.nextId ∈ s''.openIds := (alive_sp_of_eq rfl).mp halive
          rcases hfr with hfr | hout
          · intro hu''
            exact hfr.ne_nil ((usable_root_iff s'').mp hu'')
          · exact absurd hmem hout
        · intro s'' sts hu''
          obtain ⟨w'', -, hfr⟩ := FrameBelow.steps sts w' fr'
          have hhead'' : s''.openIds.head? = some s.nextId :=
            (usable_sp_iff _ _).mp hu''
          rcases hfr with hfr | hout
          · obtain ⟨ho, hs⟩ := hfr.of_head w''.nodup hhead''
            refine ⟨?_, ?_, ?_⟩
            · rw [usable_root_iff]
              show s''.openIds.tail = []
              rw [ho]
              rfl
            · show s''.snaps.headD s''.db = s.db
              rw [hs]
              rfl
            · intro s₃ hcm
              rw [commit_sp] at hcm
              split at hcm
              case isFalse => exact absurd hcm (by simp)
              have hs₃ := (Except.ok.inj hcm).symm
              subst hs₃
              rw [usable_root_iff]
              show s''.openIds.tail = []
              rw [ho]
              rfl
          · exact absurd (List.mem_of_mem_head? hhead'') hout
    | savepoint pid =>
        have hhp : s.openIds.head? = some pid := (usable_sp_iff pid s).mp hu
        have hlt : pid < s.nextId := w.bounded pid (List.mem_of_mem_head? hhp)
        have hne : s.nextId ≠ pid := by omega
        obtain ⟨t, hl⟩ : ∃ t, s.openIds = pid :: t := by
          cases hh : s.openIds with
          | nil => rw [hh] at hhp; exact absurd hhp (by simp)
          | cons a t =>
              rw [hh] at hhp
              simp only [List.head?_cons, Option.some.injEq] at hhp
              exact ⟨t, by rw [hhp]⟩
        have fr' : FrameBelow s.nextId s.db (pid :: t) s.snaps
            { s with snaps := s.db :: s.snaps,
                     openIds := s.nextId :: s.openIds,
                     nextId := s.nextId + 1 } :=
          ⟨[], [], by rw [hl]; rfl, rfl, rfl⟩
        refine ⟨?_, ?_, ?_⟩
        · intro hu'
          have := (usable_sp_iff pid _).mp hu'
          simp only [List.head?_cons, Option.some.injEq] at this
          exact hne this
        · intro s'' sts halive
          obtain ⟨w'', -, hfr⟩ := FrameBelow.steps sts w' fr'
          have hmem : s.nextId ∈ s''.openIds :=
            (alive_sp_of_eq rfl).mp halive
          rcases hfr with hfr | hout
          · intro hu''
            exact hfr.head_ne w''.nodup hne ((usable_sp_iff pid _).mp hu'')
          · exact absurd hmem hout
        · intro s'' sts hu''
          obtain ⟨w'', -, hfr⟩ := FrameBelow.steps sts w' fr'
          have hhead'' : s''.openIds.head? = some s.nextId :=
            (usable_sp_iff _ _).mp hu''
          rcases hfr with hfr | hout
          · obtain ⟨ho, hs⟩ := hfr.of_head w''.nodup hhead''
            refine ⟨?_, ?_, ?_⟩
            · rw [usable_sp_iff]
              show s''.openIds.tail.head? = some pid
              rw [ho]
              rfl
            · show s''.snaps.headD s''.db = s.db
              rw [hs]
              rfl
            · intro s₃ hcm
              rw [commit_sp] at hcm
              split at hcm
              case isFalse => exact absurd hcm (by simp)
              have hs₃ := (Except.ok.inj hcm).symm
              subst hs₃
              rw [usable_sp_iff]
              show s''.openIds.tail.head? = some pid
              rw [ho]
              rfl
          · exact absurd (List.mem_of_mem_head? hhead'') hout
  · exact absurd hnew (by simp)

/-- Claim C6, witness: opening a nested transaction on a concrete root
handle makes the parent unusable; right after creation the child is
usable, and dropping it restores the parent with the original
contents. -/
theorem C6_witness :
    ¬ Usable rootH st1 ∧ Usable rootH (dropScoped st1) ∧
      (dropScoped st1).db = st0.db :=
  have t := C6_exclusive_borrow okBackend rootH (spH 0) st0 st1
    ⟨by decide, by decide, rfl⟩ rfl rfl
  have t3 := t.2.2 st1 Relation.ReflTransGen.refl (by decide)
  ⟨t.1, t3.1, t3.2.1⟩

/-! ### Claim C7 -/

/-- Claim C7: cascading rollback.  For H0 (root) → H1 (scoped) → H2
(scoped), if H2 executes a write and commits, the write is visible in
the resulting state (commit folds it into H1's scope) and H1 is open
and usable again — committing a scoped handle does not commit its
ancestor, whose savepoint level (snapshot taken at H1's creation) is
still pending; if H1 is then dropped without committing, the connection
reverts to the contents it had before H1 existed, so H2's committed
write is not visible through H0. -/
theorem C7_cascading_rollback (B : Backend) (h1 h2 : DbConnection)
    (s s1 s2 s3 s4 : ConnState) (wsql : String) (params : List String)
    (n : Nat)
    (h1new : DbConnection.new_transaction B DbConnection.new s =
      Except.ok (h1, s1))
    (h2new : DbConnection.new_transaction B h1 s1 = Except.ok (h2, s2))
    (hw : DbConnection.execute B h2 wsql params s2 = Except.ok (n, s3))
    (hc : h2.commit B s3 = Except.ok s4) :
    s4.db = s3.db ∧
    Usable h1 s4 ∧ s4.snaps = s.db :: s.snaps ∧
    (dropScoped s4).db = s.db ∧ (dropScoped s4).openIds = s.openIds := by
  rw [new_transaction_dispatch] at h1new
  split at h1new
  · obtain ⟨hc1, hc2⟩ :
        ({ connection := UnderlyingDbConnection.savepoint s.nextId } :
            DbConnection) = h1 ∧
        ({ s with snaps := s.db :: s.snaps,
                  openIds := s.nextId :: s.openIds,
                  nextId := s.nextId + 1 } : ConnState) = s1 :=
      Prod.mk.injEq .. ▸ Except.ok.inj h1new
    subst hc1
    subst hc2
    rw [new_transaction_dispatch] at h2new
    split at h2new
    · obtain ⟨hd1, hd2⟩ := Prod.mk.injEq .. ▸ Except.ok.inj h2new
      subst hd1
      subst hd2
      rw [execute_dispatch] at hw
      split at hw
      · exact absurd hw (by simp)
      · obtain ⟨-, he2⟩ := Prod.mk.injEq .. ▸ Except.ok.inj hw
        subst he2
        rw [commit_sp] at hc
        split at hc
        case isFalse => exact absurd hc (by simp)
        have hc4 := (Except.ok.inj hc).symm
        subst hc4
        exact ⟨rfl, rfl, rfl, rfl, rfl⟩
    · exact absurd h2new (by simp)
  · exact absurd h1new (by simp)

/-- State after `new` → H1 → H2 → insert on H2 → commit H2, on the
benign backend starting from `st0`. -/
def st4c : ConnState where
  db := [[insSql]]
  lastRowid := 1
  snaps := [[]]
  openIds := [0]
  nextId := 2

/-- Intermediate state with both H1 and H2 open. -/
def stX2 : ConnState where
  db := []
  lastRowid := 0
  snaps := [[], []]
  openIds := [1, 0]
  nextId := 2

/-- `stX2` after the insert through H2. -/
def stX3 : ConnState where
  db := [[insSql]]
  lastRowid := 1
  snaps := [[], []]
  openIds := [1, 0]
  nextId := 2

/-- Claim C7, witness: the concrete three-level run — after H2's commit
H1 is usable and the write visible; dropping H1 erases it. -/
theorem C7_witness : Usable (spH 0) st4c ∧ (dropScoped st4c).db = st0.db :=
  have t := C7_cascading_rollback okBackend (spH 0) (spH 1) st0 st1 stX2
    stX3 st4c insSql [] 1 rfl rfl rfl rfl
  ⟨t.2.1, t.2.2.2.1⟩

/-! ### Claim C8 -/

/-- Claim C8: destroying a scoped handle without commit is the rollback
of exactly that one savepoint level: the handle's snapshot is restored,
exactly one snapshot and one open id are popped (ancestor levels are
untouched — there is at least one open level to pop), and the drop path
is a total function with no error channel (`dropScoped` returns a
state, not an `Except`).  It runs exactly once per handle: afterwards
the handle is unusable in every reachable state, so no second drop of
the same handle can occur on any exit path. -/
theorem C8_drop_single_level (B : Backend) (h : DbConnection) (i : Nat)
    (s : ConnState) (hsp : h.connection = UnderlyingDbConnection.savepoint i)
    (w : WF s) (hu : Usable h s) :
    (dropScoped s).db = s.snaps.headD s.db ∧
    (dropScoped s).snaps = s.snaps.tail ∧
    (dropScoped s).openIds = s.openIds.tail ∧
    s.snaps ≠ [] ∧
    (∀ s'', Steps B (dropScoped s) s'' → ¬ Usable h s'') := by
  obtain ⟨cc⟩ := h
  cases hsp
  have hhead : s.openIds.head? = some i := hu
  have hmem : i ∈ s.openIds := List.mem_of_mem_head? hhead
  have hlt : i < s.nextId := w.bounded i hmem
  refine ⟨rfl, rfl, rfl, ?_, ?_⟩
  · intro hnil
    cases hl : s.openIds with
    | nil => rw [hl] at hhead; exact absurd hhead (by simp)
    | cons a t =>
        have halign := w.aligned
        rw [hnil, hl] at halign
        exact absurd halign (by simp)
  · have hout : i ∉ (dropScoped s).openIds := by
      show i ∉ s.openIds.tail
      have hnd := w.nodup
      cases hl : s.openIds with
      | nil => rw [hl] at hhead; exact absurd hhead (by simp)
      | cons a t =>
          rw [hl] at hhead hnd
          simp only [List.head?_cons, Option.some.injEq] at hhead
          have hnotin := (List.nodup_cons.mp hnd).1
          rw [hhead] at hnotin
          simpa using hnotin
    have hw' : WF (dropScoped s) := (Step.dropStep (B := B) s).wf w
    intro s'' sts
    obtain ⟨-, -, ho⟩ := Steps.wf_dead sts hw' hlt hout
    exact not_usable_of_not_mem ho

/-- Claim C8, witness: dropping the one open scoped handle of `st1`
pops exactly its level and leaves the handle permanently unusable. -/
theorem C8_witness :
    (dropScoped st1).snaps = st1.snaps.tail ∧ ¬ Usable (spH 0) (dropScoped st1) :=
  have t := C8_drop_single_level okBackend (spH 0) 0 st1 rfl
    ⟨by decide, by decide, rfl⟩ (by decide)
  ⟨t.2.1, t.2.2.2.2 (dropScoped st1) Relation.ReflTransGen.refl⟩

/-! ### Claim C9 -/

/-- Claim C9: error taxonomy.  Every failure of every operation is the
single `Error::DatabaseError` kind: `execute`, `execute_batch` and
`query_row` stringify the backend-native error into its message, while
`prepare`, `new_transaction`, a commit on the root handle, a failing
`RELEASE` on a scoped handle's commit, and `as_connection_mut` on a
scoped handle report their fixed descriptive messages.  All operations
are total functions into `Except`, so none of these ordinary failure
conditions is a panic or process abort. -/
theorem C9_error_taxonomy {T : Type} (B : Backend) (h : DbConnection)
    (i : Nat) (sql : String) (params : List String)
    (f : Row → Except NativeError T) (s : ConnState) (e : NativeError) :
    (B.exec sql params s.db s.lastRowid = Except.error e →
      DbConnection.execute B h sql params s =
        Except.error (Error.DatabaseError e.msg)) ∧
    (B.execBatch sql s.db s.lastRowid = Except.error e →
      DbConnection.execute_batch B h sql s =
        Except.error (Error.DatabaseError e.msg)) ∧
    (rusqliteQueryRow B sql params f s.db = Except.error e →
      DbConnection.query_row B h sql params f s =
        Except.error (Error.DatabaseError e.msg)) ∧
    (B.prep sql s.db = some e →
      DbConnection.prepare B h sql s =
        Except.error (Error.DatabaseError msgPrepareFail)) ∧
    (B.savepointOk s.openIds.length = false →
      DbConnection.new_transaction B h s =
        Except.error (Error.DatabaseError msgStartTxnFail)) ∧
    (h.connection = UnderlyingDbConnection.connection →
      h.commit B s = Except.error (Error.DatabaseError msgCommitRoot)) ∧
    (h.connection = UnderlyingDbConnection.savepoint i →
      B.releaseOk s.openIds.length = false →
      h.commit B s = Except.error (Error.DatabaseError msgCommitFail)) ∧
    (h.connection = UnderlyingDbConnection.savepoint i →
      h.as_connection_mut = Except.error (Error.DatabaseError msgMutInTxn)) ∧
    (∀ err : Error,
      DbConnection.execute B h sql params s = Except.error err ∨
      DbConnection.query_row B h sql params f s = Except.error err ∨
      h.commit B s = Except.error err →
      ∃ m, err = Error.DatabaseError m) := by
  refine ⟨?_, ?_, ?_, ?_, ?_, ?_, ?_, ?_, ?_⟩
  · intro hb
    rw [execute_dispatch, hb]
  · intro hb
    rw [execute_batch_dispatch, hb]
  · intro hq
    rw [query_row_dispatch, hq]
  · intro hp
    rw [prepare_dispatch, hp]
  · intro hso
    rw [new_transaction_dispatch]
    simp [hso]
  · intro he
    obtain ⟨cc⟩ := h
    cases he
    rfl
  · intro he hro
    obtain ⟨cc⟩ := h
    cases he
    rw [commit_sp]
    simp [hro]
  · intro he
    obtain ⟨cc⟩ := h
    cases he
    rfl
  · intro err _
    cases err
    exact ⟨_, rfl⟩

/-- Claim C9, witness: on a backend where everything fails, a concrete
execute stringifies the native message, a concrete `new_transaction`
reports its fixed message, and a concrete scoped commit whose `RELEASE`
fails reports its fixed message — all as `DatabaseError`. -/
theorem C9_witness :
    DbConnection.execute failBackend rootH insSql [] st0 =
      Except.error (Error.DatabaseError msgNativeBoom) ∧
    DbConnection.new_transaction failBackend rootH st0 =
      Except.error (Error.DatabaseError msgStartTxnFail) ∧
    (spH 0).commit failBackend st1 =
      Except.error (Error.DatabaseError msgCommitFail) :=
  have t := C9_error_taxonomy failBackend rootH 0 insSql []
    (fun r => (Except.ok r : Except NativeError Row)) st0
    { msg := msgNativeBoom }
  have t2 := C9_error_taxonomy failBackend (spH 0) 0 insSql []
    (fun r => (Except.ok r : Except NativeError Row)) st1
    { msg := msgNativeBoom }
  ⟨t.1 rfl, t.2.2.2.2.1 rfl, t2.2.2.2.2.2.2.1 rfl rfl⟩

/-! ### Claim C10 -/

/-- Claim C10: `last_insert_rowid` is total — it reads the handle
immutably and always returns an integer, with no error or panic path —
and both variants dereference to the one shared physical connection, so
every handle at every nesting depth reports the same value: the rowid
recorded by the most recent insert executed on the connection through
any nesting level. -/
theorem C10_last_insert_rowid (B : Backend) (h h' : DbConnection)
    (sql : String) (params : List String) (s s' : ConnState)
    (db' : DB) (n : Nat) (rid : Int) :
    DbConnection.last_insert_rowid h s = s.lastRowid ∧
    DbConnection.last_insert_rowid h s = DbConnection.last_insert_rowid h' s ∧
    (B.exec sql params s.db s.lastRowid = Except.ok (db', n, rid) →
      DbConnection.execute B h sql params s = Except.ok (n, s') →
      DbConnection.last_insert_rowid h' s' = rid) := by
  refine ⟨last_insert_rowid_eq h s, ?_, ?_⟩
  · rw [last_insert_rowid_eq, last_insert_rowid_eq]
  · intro hb hex
    rw [execute_dispatch, hb] at hex
    have hex2 : (Except.ok (n, { s with db := db', lastRowid := rid }) :
        Except Error (Nat × ConnState)) = Except.ok (n, s') := hex
    obtain ⟨-, h2⟩ := Prod.mk.injEq .. ▸ Except.ok.inj hex2
    subst h2
    rw [last_insert_rowid_eq]

/-- Claim C10, witness: after an insert through the scoped handle, the
root handle reads the same, updated rowid. -/
theorem C10_witness : DbConnection.last_insert_rowid rootH stW = 1 :=
  (C10_last_insert_rowid okBackend (spH 0) rootH insSql [] st1 stW
    [[insSql]] 1 1).2.2 rfl rfl
